import Mathlib

/-!
Shallow embedding of the process-management core of this repository:
`src/libstd/io/process.rs` (ExitStatus model, StdioContainer, ProcessConfig,
Process lifecycle) and the foreign-memory wrapper `src/libextra/c_vec.rs`
(CVec, DtorRes).  Machine integers (Rust `int`) are modelled as `Int`,
`uint` as `Nat`; none of the embedded operations can overflow.  Fallible or
panicking operations return `Option`.  External collaborators (the libuv
runtime handle, the OS spawner, libc constants) are modelled from the spec
where noted.
-/

set_option maxHeartbeats 1000000

namespace RustProc

/-- Windows value of the polite-termination signal constant
(`#[cfg(windows)] pub static PleaseExitSignal: int = 15`). -/
def PleaseExitSignalWindows : Int := 15

/-- Windows value of the forced-kill signal constant
(`#[cfg(windows)] pub static MustDieSignal: int = 9`). -/
def MustDieSignalWindows : Int := 9

/-- Modelled from the spec: the platform `libc::SIGTERM` value on POSIX.
`libc` is an external collaborator not under `src/`; POSIX platforms
supported by the repository all use 15 for SIGTERM. -/
def SIGTERM : Int := 15

/-- Modelled from the spec: the platform `libc::SIGKILL` value on POSIX,
which is 9 on the supported platforms. -/
def SIGKILL : Int := 9

/-- Non-windows value: `pub static PleaseExitSignal: int = libc::SIGTERM as int`. -/
def PleaseExitSignal : Int := SIGTERM

/-- Non-windows value: `pub static MustDieSignal: int = libc::SIGKILL as int`. -/
def MustDieSignal : Int := SIGKILL

/-- The result of a process after it has terminated
(`pub enum ProcessExit` in process.rs). -/
inductive ProcessExit where
  /-- Normal termination with an exit status. -/
  | ExitStatus (code : Int)
  /-- Termination by signal, with the signal number. -/
  | ExitSignal (code : Int)
deriving DecidableEq, Repr

/-- The `#[deriving(Eq)]` equality on ProcessExit: same variant, equal payload. -/
def ProcessExit.beq : ProcessExit → ProcessExit → Bool
  | .ExitStatus a, .ExitStatus b => a == b
  | .ExitSignal a, .ExitSignal b => a == b
  | _, _ => false

/-- `matches_exit_status`: `*self == ExitStatus(wanted)` via the derived equality. -/
def ProcessExit.matches_exit_status (s : ProcessExit) (wanted : Int) : Bool :=
  ProcessExit.beq s (.ExitStatus wanted)

/-- `success`: `self.matches_exit_status(0)`. -/
def ProcessExit.success (s : ProcessExit) : Bool :=
  s.matches_exit_status 0

/-- The `fmt::Show` rendering of a ProcessExit:
`write!(f.buf, "exit code: \x7b\x7d", code)` resp.
`write!(f.buf, "signal: \x7b\x7d", code)`. -/
def ProcessExit.fmt : ProcessExit → String
  | .ExitStatus code => "exit code: " ++ toString code
  | .ExitSignal code => "signal: " ++ toString code

/-- Per-slot stdio policy for a child process (`pub enum StdioContainer`). -/
inductive StdioContainer where
  /-- Stream attached to `/dev/null`. -/
  | Ignored
  /-- The given file descriptor is inherited for this stream. -/
  | InheritFd (fd : Int)
  /-- A pipe is created for this slot; flags are child-side readability and
  writability. -/
  | CreatePipe (readable : Bool) (writable : Bool)
deriving DecidableEq, Repr

/-- Does this stdio slot request a fresh pipe? -/
def StdioContainer.isCreatePipe : StdioContainer → Bool
  | .CreatePipe _ _ => true
  | _ => false

/-- Spawn configuration (`pub struct ProcessConfig`).  Borrowed slices become
lists, `&str` becomes `String`. -/
structure ProcessConfig where
  program : String
  args : List String
  env : Option (List (String × String))
  cwd : Option String
  io : List StdioContainer
  uid : Option Nat
  gid : Option Nat
  detach : Bool
deriving DecidableEq, Repr

/-- `ProcessConfig::new()`: a configuration with blanks as all of the defaults. -/
def ProcessConfig.new : ProcessConfig :=
  { program := ""
    args := []
    env := none
    cwd := none
    io := []
    uid := none
    gid := none
    detach := false }

/-- Modelled from the spec: the runtime process handle (`~RtioProcess`) is an
external collaborator (the event-loop backend); only its trait is visible from
`src/`.  Its `wait` caches the first result because the OS-level wait primitive
is destructive (it consumes the zombie) and may not be called twice.  `osExit`
is the child's actual termination outcome, `osWaitCount` counts invocations of
the destructive, blocking OS wait, `reaped` records whether the zombie has been
consumed, `cached` the stored result of the first wait. -/
structure RtioProcess where
  pid : Int
  osExit : ProcessExit
  osWaitCount : Nat
  reaped : Bool
  cached : Option ProcessExit
deriving DecidableEq, Repr

/-- Modelled from the spec: `RtioProcess::wait` returns the cached status when
one is present (no OS call, no blocking); otherwise it invokes the blocking OS
wait once, reaping the child, and caches the result. -/
def RtioProcess.wait (h : RtioProcess) : ProcessExit × RtioProcess :=
  match h.cached with
  | some st => (st, h)
  | none =>
      (h.osExit,
       { h with
           osWaitCount := h.osWaitCount + 1
           reaped := true
           cached := some h.osExit })

/-- A parent-side pipe endpoint (`io::PipeStream`), identified by its raw
OS handle. -/
structure PipeStream where
  fd : Nat
deriving DecidableEq, Repr

/-- `PipeStream::new` wraps a raw pipe handle handed over by the spawner. -/
def PipeStream.new (fd : Nat) : PipeStream := ⟨fd⟩

/-- A spawned child process (`pub struct Process`): the owned runtime handle
and the ordered sequence of optional parent-side pipe endpoints. -/
structure Process where
  handle : RtioProcess
  io : List (Option PipeStream)
deriving DecidableEq, Repr

/-- Modelled from the spec: the OS spawner (`io.spawn(config)` behind
`LocalIo::maybe_raise`) is an external collaborator.  On success it yields a
fresh runtime handle (nothing waited yet, nothing cached) and one raw pipe
option per `stdio` element, `some` exactly for the `CreatePipe` slots, in
order; the raw handle of the pipe for slot `i` is abstracted as `i`.  Failure
of the platform spawn is environmental and abstracted by the `ok` oracle;
`pid` and `osExit` abstract the platform-chosen process id and the child's
eventual termination outcome. -/
def spawn (ok : Bool) (pid : Int) (osExit : ProcessExit) (cfg : ProcessConfig) :
    Option (RtioProcess × List (Option Nat)) :=
  if ok then
    some ({ pid := pid, osExit := osExit, osWaitCount := 0,
            reaped := false, cached := none },
          cfg.io.enum.map fun si =>
            match si.2 with
            | .CreatePipe _ _ => some si.1
            | _ => none)
  else none

/-- `Process::new`: runs the spawner and, on success, wraps each raw pipe in a
`PipeStream` (`io.move_iter().map(|p| p.map(|p| io::PipeStream::new(p)))`). -/
def Process.new (ok : Bool) (pid : Int) (osExit : ProcessExit)
    (cfg : ProcessConfig) : Option Process :=
  (spawn ok pid osExit cfg).map fun pio =>
    { handle := pio.1
      io := pio.2.map fun p => p.map PipeStream.new }

/-- `Process::id`: the process id of the child. -/
def Process.id (p : Process) : Int := p.handle.pid

/-- `Process::wait`: delegates to the runtime handle
(`pub fn wait(&mut self) -> ProcessExit { self.handle.wait() }`). -/
def Process.wait (p : Process) : ProcessExit × Process :=
  let r := p.handle.wait
  (r.1, { p with handle := r.2 })

/-- The state of a process after one call to `wait` (the returned status
dropped). -/
def Process.waitState (p : Process) : Process := p.wait.2

/-- An observable event during destruction of a `Process`: closing one pipe
endpoint, or the call to `wait`. -/
inductive TraceEvent where
  | close (p : PipeStream)
  | waitCall
deriving DecidableEq, Repr

/-- The destructor loop of `Drop for Process`: `self.io.pop()` removes the
last slot until the vector is empty; a popped `Some(pipe)` is dropped, which
closes the pipe.  The argument is the io sequence in pop order (last slot
first), and the result is the emitted close events in order. -/
def dropLoop : List (Option PipeStream) → List TraceEvent
  | [] => []
  | none :: rest => dropLoop rest
  | some p :: rest => TraceEvent.close p :: dropLoop rest

/-- `Drop for Process`: close all I/O first (the pop loop empties `io`), then
`self.wait()`.  Returns the final state and the ordered event trace. -/
def Process.drop (p : Process) : Process × List TraceEvent :=
  let closes := dropLoop p.io.reverse
  let emptied : Process := { p with io := [] }
  let r := emptied.wait
  (r.2, closes ++ [TraceEvent.waitCall])

/-- States of a runtime handle reachable through the embedded operations: a
result is cached only after the OS wait has reaped the child. -/
def RtioProcess.WF (h : RtioProcess) : Prop :=
  h.cached.isSome = true → h.reaped = true

end RustProc

namespace RustCVec

/-- The deferred-destructor resource of c_vec.rs (`struct DtorRes`): an owned
optional cleanup action.  The caller-supplied `proc()` has no observable
structure of its own, so it is modelled as a `Unit` token; what matters is
whether it is still armed and how often it runs. -/
structure DtorRes where
  dtor : Option Unit
deriving DecidableEq, Repr

/-- `DtorRes::new(dtor)`. -/
def DtorRes.new (dtor : Option Unit) : DtorRes := ⟨dtor⟩

/-- `Drop for DtorRes`: `self.dtor.take()` leaves `none` behind; the taken
action, if present, is run.  Returns the updated resource and the number of
times the action ran during this drop. -/
def DtorRes.drop (r : DtorRes) : DtorRes × Nat :=
  match r.dtor with
  | none => (⟨none⟩, 0)
  | some _ => (⟨none⟩, 1)

/-- The foreign-memory wrapper (`pub struct CVec<T>`): a raw base pointer
(modelled as a `Nat` address in units of the element type, 0 being null), a
length in elements, and the destructor resource. -/
structure CVec where
  base : Nat
  len : Nat
  rsrc : DtorRes
deriving DecidableEq, Repr

/-- `CVec::new(base, len)`: asserts the pointer is non-null (a failed
assertion is `none`), then wraps it with no destructor. -/
def CVec.new (base : Nat) (len : Nat) : Option CVec :=
  if base ≠ 0 then some ⟨base, len, DtorRes.new none⟩ else none

/-- `CVec::new_with_dtor(base, len, dtor)`: asserts the pointer is non-null,
then wraps it with the destructor armed. -/
def CVec.new_with_dtor (base : Nat) (len : Nat) (dtor : Unit) : Option CVec :=
  if base ≠ 0 then some ⟨base, len, DtorRes.new (some dtor)⟩ else none

/-- `CVec::get(ofs)`: `assert!(ofs < self.len)` (a failed assertion is
`none`), then a shared reference to `*self.base.offset(ofs)` — modelled as
the address of element `ofs`. -/
def CVec.get (v : CVec) (ofs : Nat) : Option Nat :=
  if ofs < v.len then some (v.base + ofs) else none

/-- `CVec::get_mut(ofs)`: same bounds assertion, then a mutable reference to
element `ofs`; takes `&mut self`, so the (unchanged) vector is returned
alongside the address. -/
def CVec.get_mut (v : CVec) (ofs : Nat) : Option (Nat × CVec) :=
  if ofs < v.len then some (v.base + ofs, v) else none

/-- `Container for CVec`: `fn len(&self) -> uint { self.len }`. -/
def CVec.length (v : CVec) : Nat := v.len

/-- `CVec::unwrap()`: disarms the destructor (`self.rsrc.dtor = None`) and
returns the underlying pointer; the consumed wrapper's final state is
returned alongside so its subsequent (inert) destruction can be observed. -/
def CVec.unwrap (v : CVec) : Nat × CVec :=
  (v.base, { v with rsrc := ⟨none⟩ })

end RustCVec

namespace RustProc

/-- C3: `matches_exit_status(n)` returns true iff the value is `ExitStatus(n)`;
for every signal-terminated result `ExitSignal(s)` and every `n` it returns
false, even when `s` numerically equals `n`. -/
theorem ProcessExit.matches_exit_status_iff (e : ProcessExit) (n : Int) :
    (e.matches_exit_status n = true ↔ e = .ExitStatus n) ∧
    (∀ s : Int, (ProcessExit.ExitSignal s).matches_exit_status n = false) := by
  constructor
  · cases e <;> simp [ProcessExit.matches_exit_status, ProcessExit.beq]
  · intro s
    simp [ProcessExit.matches_exit_status, ProcessExit.beq]

/-- C4: `success()` returns true iff the value is `ExitStatus(0)`; it returns
false for every `ExitSignal`, including `ExitSignal(0)`. -/
theorem ProcessExit.success_iff (e : ProcessExit) :
    (e.success = true ↔ e = .ExitStatus 0) ∧
    (∀ s : Int, (ProcessExit.ExitSignal s).success = false) := by
  constructor
  · cases e <;>
      simp [ProcessExit.success, ProcessExit.matches_exit_status, ProcessExit.beq]
  · intro s
    simp [ProcessExit.success, ProcessExit.matches_exit_status, ProcessExit.beq]

/-- C6: `ProcessConfig::new()` returns the canonical default configuration:
empty program, empty args, inherited env, inherited cwd, empty io slot list,
no uid/gid override, not detached. -/
theorem ProcessConfig.new_default :
    ProcessConfig.new.program = "" ∧ ProcessConfig.new.args = [] ∧
    ProcessConfig.new.env = none ∧ ProcessConfig.new.cwd = none ∧
    ProcessConfig.new.io = [] ∧ ProcessConfig.new.uid = none ∧
    ProcessConfig.new.gid = none ∧ ProcessConfig.new.detach = false :=
  ⟨rfl, rfl, rfl, rfl, rfl, rfl, rfl, rfl⟩

/-- C7: the rendering of a `ProcessExit` distinguishes the variants —
`ExitStatus(n)` renders as "exit code: n", `ExitSignal(n)` as "signal: n", and
for values from different variants the rendered strings always differ, even
when the numeric payloads are equal. -/
theorem ProcessExit.fmt_distinguishes (m n : Int) :
    (ProcessExit.ExitStatus m).fmt = "exit code: " ++ toString m ∧
    (ProcessExit.ExitSignal n).fmt = "signal: " ++ toString n ∧
    (ProcessExit.ExitStatus m).fmt ≠ (ProcessExit.ExitSignal n).fmt := by
  refine ⟨rfl, rfl, fun h => ?_⟩
  have h2 := congrArg String.data h
  simp only [ProcessExit.fmt, String.data_append, List.cons_append,
    List.cons.injEq] at h2
  exact absurd h2.1 (by decide)

/-- Waiting on a handle whose status is already cached returns the cached
status and leaves the handle untouched. -/
theorem RtioProcess.wait_cached (h : RtioProcess) (st : ProcessExit)
    (hc : h.cached = some st) : h.wait = (st, h) := by
  unfold RtioProcess.wait
  rw [hc]

/-- Waiting on a process whose handle already caches a status returns it and
leaves the process untouched. -/
theorem Process.wait_of_cached (p : Process) (st : ProcessExit)
    (hc : p.handle.cached = some st) : p.wait = (st, p) := by
  unfold Process.wait
  rw [RtioProcess.wait_cached p.handle st hc]

/-- After one wait, the handle caches exactly the status the wait returned. -/
theorem Process.waitState_cached (p : Process) :
    p.waitState.handle.cached = some p.wait.1 := by
  unfold Process.waitState Process.wait RtioProcess.wait
  cases hc : p.handle.cached <;> simp [hc]

/-- Waiting a second time is a fixed point of the state transition. -/
theorem Process.waitState_waitState (p : Process) :
    p.waitState.waitState = p.waitState := by
  have h := Process.wait_of_cached p.waitState p.wait.1 (Process.waitState_cached p)
  unfold Process.waitState at h ⊢
  rw [h]

/-- C1: once `wait()` has been called on a process, every subsequent call
returns the same ExitStatus as the first, leaves the state exactly as it was
after the first call, and in particular never re-invokes the destructive,
blocking OS wait (the OS-wait count stays fixed).  `waitState^[n] p.waitState`
is the state after the first call followed by `n` further calls. -/
theorem Process.wait_idempotent (p : Process) (n : Nat) :
    (Process.waitState^[n] p.waitState).wait.1 = p.wait.1 ∧
    (Process.waitState^[n] p.waitState).wait.2 = p.waitState ∧
    (Process.waitState^[n] p.waitState).wait.2.handle.osWaitCount
      = p.waitState.handle.osWaitCount := by
  have hfix : Process.waitState^[n] p.waitState = p.waitState :=
    Function.iterate_fixed (Process.waitState_waitState p) n
  have hw := Process.wait_of_cached p.waitState p.wait.1 (Process.waitState_cached p)
  rw [hfix, hw]
  exact ⟨rfl, rfl, rfl⟩

/-- A close event for pipe `q` is emitted by the destructor loop iff the slot
`some q` is in the list it empties. -/
theorem dropLoop_mem_close (l : List (Option PipeStream)) (q : PipeStream) :
    TraceEvent.close q ∈ dropLoop l ↔ some q ∈ l := by
  induction l with
  | nil => simp [dropLoop]
  | cons hd tl ih => cases hd <;> simp [dropLoop, ih]

/-- The destructor loop emits only close events. -/
theorem dropLoop_ne_waitCall (l : List (Option PipeStream)) :
    ∀ e ∈ dropLoop l, e ≠ TraceEvent.waitCall := by
  induction l with
  | nil => simp [dropLoop]
  | cons hd tl ih =>
      cases hd with
      | none => simpa [dropLoop] using ih
      | some r =>
          intro e he
          rcases List.mem_cons.1 he with rfl | he
          · intro hcontra
            exact TraceEvent.noConfusion hcontra
          · exact ih e he

/-- C2: destroying a Process first closes every pipe slot still present (each
emits a close event, and only close events precede the wait), then calls
`wait()` exactly once, as the last step; afterwards no pipe slot remains and
the child has been reaped. -/
theorem Process.drop_closes_then_waits (p : Process)
    (hwf : RtioProcess.WF p.handle) :
    (p.drop).1.io = [] ∧
    (p.drop).2.getLast? = some TraceEvent.waitCall ∧
    (p.drop).2.count TraceEvent.waitCall = 1 ∧
    (∀ e ∈ (p.drop).2.dropLast, e ≠ TraceEvent.waitCall) ∧
    (∀ q : PipeStream, TraceEvent.close q ∈ (p.drop).2 ↔ some q ∈ p.io) ∧
    (p.drop).1.handle.reaped = true ∧
    ((p.drop).1.handle.cached).isSome = true := by
  have hdrop2 : (p.drop).2 = dropLoop p.io.reverse ++ [TraceEvent.waitCall] := rfl
  refine ⟨?_, ?_, ?_, ?_, ?_, ?_, ?_⟩
  · unfold Process.drop Process.wait RtioProcess.wait
    cases hc : p.handle.cached <;> simp
  · rw [hdrop2, List.getLast?_append]
    rfl
  · rw [hdrop2, List.count_append]
    have h0 : (dropLoop p.io.reverse).count TraceEvent.waitCall = 0 :=
      List.count_eq_zero.2 fun hm => dropLoop_ne_waitCall _ _ hm rfl
    rw [h0]
    rfl
  · rw [hdrop2, List.dropLast_concat]
    exact dropLoop_ne_waitCall _
  · intro q
    rw [hdrop2, List.mem_append, dropLoop_mem_close, List.mem_reverse]
    simp
  · unfold Process.drop Process.wait RtioProcess.wait
    cases hc : p.handle.cached with
    | none => simp [hc]
    | some st =>
        simp only [hc]
        exact hwf (by rw [hc]; rfl)
  · unfold Process.drop Process.wait RtioProcess.wait
    cases hc : p.handle.cached <;> simp [hc]

/-- Concrete instantiation of the destruction contract: a process with two
open pipe slots and one already-closed slot, never waited on. -/
theorem Process.drop_closes_then_waits_witness :
    RtioProcess.WF { pid := 1, osExit := ProcessExit.ExitStatus 0,
                     osWaitCount := 0, reaped := false, cached := none } ∧
    (let p : Process :=
      { handle := { pid := 1, osExit := ProcessExit.ExitStatus 0,
                    osWaitCount := 0, reaped := false, cached := none },
        io := [some ⟨5⟩, none, some ⟨9⟩] }
     (p.drop).1.io = [] ∧
     (p.drop).2.getLast? = some TraceEvent.waitCall ∧
     (p.drop).2.count TraceEvent.waitCall = 1 ∧
     (∀ e ∈ (p.drop).2.dropLast, e ≠ TraceEvent.waitCall) ∧
     (∀ q : PipeStream, TraceEvent.close q ∈ (p.drop).2 ↔ some q ∈ p.io) ∧
     (p.drop).1.handle.reaped = true ∧
     ((p.drop).1.handle.cached).isSome = true) :=
  ⟨fun h => by simp at h,
   Process.drop_closes_then_waits
     { handle := { pid := 1, osExit := ProcessExit.ExitStatus 0,
                   osWaitCount := 0, reaped := false, cached := none },
       io := [some ⟨5⟩, none, some ⟨9⟩] }
     (fun h => by simp at h)⟩

/-- C5: when spawning succeeds, the process's pipe-slot sequence has exactly
one entry per element of the config's io sequence, and slot `i` holds an
endpoint iff `io[i]` was `CreatePipe`, in the same order. -/
theorem Process.new_io_slots_aligned (ok : Bool) (pid : Int)
    (osExit : ProcessExit) (cfg : ProcessConfig) (p : Process)
    (h : Process.new ok pid osExit cfg = some p) :
    p.io.length = cfg.io.length ∧
    ∀ i : Nat, ∀ hi : i < cfg.io.length, ∀ hp : i < p.io.length,
      (p.io.get ⟨i, hp⟩).isSome = (cfg.io.get ⟨i, hi⟩).isCreatePipe := by
  cases ok with
  | false => simp [Process.new, spawn] at h
  | true =>
      have h2 : some
          { handle := { pid := pid, osExit := osExit, osWaitCount := 0,
                        reaped := false, cached := none },
            io := (cfg.io.enum.map fun si =>
                    match si.2 with
                    | StdioContainer.CreatePipe _ _ => some si.1
                    | _ => none).map
                  fun q => q.map PipeStream.new } = some p := h
      cases Option.some.inj h2
      constructor
      · simp
      · intro i hi hp
        simp only [List.get_eq_getElem, List.getElem_map, List.getElem_enum]
        cases hcfg : cfg.io[i] <;> simp [hcfg, StdioContainer.isCreatePipe]

/-- Concrete instantiation of slot alignment: a config with one Ignored, one
child-writable pipe, one inherited fd and one child-readable pipe slot. -/
theorem Process.new_io_slots_aligned_witness :
    (let cfg : ProcessConfig :=
      { ProcessConfig.new with
          io := [StdioContainer.Ignored, StdioContainer.CreatePipe false true,
                 StdioContainer.InheritFd 2, StdioContainer.CreatePipe true false] }
     let p : Process :=
      { handle := { pid := 7, osExit := ProcessExit.ExitStatus 0,
                    osWaitCount := 0, reaped := false, cached := none },
        io := [none, some ⟨1⟩, none, some ⟨3⟩] }
     Process.new true 7 (ProcessExit.ExitStatus 0) cfg = some p ∧
     (p.io.length = cfg.io.length ∧
      ∀ i : Nat, ∀ hi : i < cfg.io.length, ∀ hp : i < p.io.length,
        (p.io.get ⟨i, hp⟩).isSome = (cfg.io.get ⟨i, hi⟩).isCreatePipe)) :=
  ⟨by decide,
   Process.new_io_slots_aligned true 7 (ProcessExit.ExitStatus 0) _ _ (by decide)⟩

/-- C9: the "please exit" constant equals the platform SIGTERM value on POSIX
and a TERM-equivalent sentinel on Windows; the "must die" constant equals the
platform SIGKILL value and a KILL-equivalent sentinel on Windows; on each
platform the two constants are distinct. -/
theorem signal_constants_correct :
    PleaseExitSignal = SIGTERM ∧ MustDieSignal = SIGKILL ∧
    PleaseExitSignal ≠ MustDieSignal ∧
    PleaseExitSignalWindows = SIGTERM ∧ MustDieSignalWindows = SIGKILL ∧
    PleaseExitSignalWindows ≠ MustDieSignalWindows :=
  ⟨rfl, rfl, by decide, rfl, rfl, by decide⟩

end RustProc

namespace RustCVec

/-- C8: for a CVec constructed with a destructor action, destruction runs the
action exactly once and disarms it, so a further destruction runs it zero
times (never twice); calling `unwrap()` first returns the underlying pointer
and marks the wrapper already-finalized, so its destruction runs the action
zero times.  The run count of each destruction is the second component of
`DtorRes.drop`. -/
theorem CVec.dtor_runs_exactly_once (base len : Nat) (v : CVec)
    (h : CVec.new_with_dtor base len () = some v) :
    (v.rsrc.drop).2 = 1 ∧
    ((v.rsrc.drop).1.drop).2 = 0 ∧
    (v.unwrap).1 = v.base ∧
    (v.unwrap).2.rsrc.dtor = none ∧
    ((v.unwrap).2.rsrc.drop).2 = 0 := by
  unfold CVec.new_with_dtor at h
  by_cases hb : base ≠ 0
  · rw [if_pos hb] at h
    cases Option.some.inj h
    exact ⟨rfl, rfl, rfl, rfl, rfl⟩
  · rw [if_neg hb] at h
    exact absurd h (by simp)

/-- Concrete instantiation of the finalizer contract, at a buffer of 16
elements based at address 4. -/
theorem CVec.dtor_runs_exactly_once_witness :
    CVec.new_with_dtor 4 16 () = some ⟨4, 16, ⟨some ()⟩⟩ ∧
    (((⟨4, 16, ⟨some ()⟩⟩ : CVec).rsrc.drop).2 = 1 ∧
     (((⟨4, 16, ⟨some ()⟩⟩ : CVec).rsrc.drop).1.drop).2 = 0 ∧
     ((⟨4, 16, ⟨some ()⟩⟩ : CVec).unwrap).1 = (⟨4, 16, ⟨some ()⟩⟩ : CVec).base ∧
     ((⟨4, 16, ⟨some ()⟩⟩ : CVec).unwrap).2.rsrc.dtor = none ∧
     (((⟨4, 16, ⟨some ()⟩⟩ : CVec).unwrap).2.rsrc.drop).2 = 0) :=
  ⟨by decide, CVec.dtor_runs_exactly_once 4 16 ⟨4, 16, ⟨some ()⟩⟩ (by decide)⟩

/-- C10: `get(ofs)` and `get_mut(ofs)` fail the bounds assertion iff
`ofs ≥ len`; when `ofs < len` they return a reference to element `ofs` of the
buffer, `get_mut` leaving the vector (and hence `len()`) unchanged. -/
theorem CVec.get_bounds_check (v : CVec) (ofs : Nat) :
    (v.get ofs = none ↔ v.len ≤ ofs) ∧
    (v.get_mut ofs = none ↔ v.len ≤ ofs) ∧
    (ofs < v.len →
      v.get ofs = some (v.base + ofs) ∧
      v.get_mut ofs = some (v.base + ofs, v) ∧
      ((v.get_mut ofs).map fun r => r.2.length) = some v.length) := by
  unfold CVec.get CVec.get_mut CVec.length
  by_cases h : ofs < v.len
  · simp [h]
  · simp [h]
    omega

end RustCVec
